import Mathlib

/-!
Shallow embedding of `src/scripts.js` (client-side dashboard widgets).

The browser-provided collaborators (localStorage, JSON.parse/stringify,
Array.prototype.splice, String.prototype.trim, number-to-string coercion,
the DOM) are modelled as executable Lean functions; the widget code itself
is translated function by function from the source.
-/

/-! ## Browser key-value store (localStorage) -/

/-- A localStorage snapshot: string keys to string values, absent keys give
`none` (JS `null`). -/
def Store : Type := String → Option String

/-- `localStorage.setItem k v`. -/
def setItem (store : Store) (k v : String) : Store :=
  fun k2 => if k2 = k then some v else store k2

/-- `localStorage.getItem k`. -/
def getItem (store : Store) (k : String) : Option String :=
  store k

/-! ## JS number-to-string coercion (template literal interpolation)

Models the decimal rendering of a non-negative JS number, as used by
template literals such as the calendar storage key. -/

/-- Decimal digit characters of `n`, most-significant first; fuel-structured
so that it evaluates in the kernel. -/
def natCharsAux : Nat → Nat → List Char
  | 0, _ => []
  | fuel + 1, n =>
    if n = 0 then []
    else natCharsAux fuel (n / 10) ++ [Char.ofNat (48 + n % 10)]

/-- Decimal string of a non-negative number, as JS renders it. -/
def natToString (n : Nat) : String :=
  if n = 0 then "0" else String.mk (natCharsAux (n + 1) n)

/-! ## JS string trim (String.prototype.trim) -/

/-- Whitespace characters removed by JS `trim` (ASCII subset). -/
def jsWhitespace (c : Char) : Bool :=
  c = ' ' || c = '\t' || c = '\n' || c = '\r' || c = '\x0b' || c = '\x0c'

/-- `s.trim()`: strip leading and trailing whitespace. -/
def jsTrim (s : String) : String :=
  String.mk (((s.data.dropWhile jsWhitespace).reverse.dropWhile jsWhitespace).reverse)

/-! ## JS Array.prototype.splice with deleteCount 1

`arr.splice(start, 1)`: a negative `start` counts from the end and is
clamped at 0; a `start` past the end is clamped to the length (removing
nothing). -/

/-- Result of `arr.splice(start, 1)` (the remaining array). -/
def jsSpliceRemoveOne (l : List α) (start : Int) : List α :=
  let len := l.length
  let actualStart : Nat :=
    if start < 0 then ((len : Int) + start).toNat else min start.toNat len
  l.take actualStart ++ l.drop (actualStart + 1)

/-! ## JSON values and JSON.parse

`JSON.parse` is modelled by a recursive-descent parser over the character
list, returning `none` where `JSON.parse` would throw a `SyntaxError`.
Numeric literals are kept as their lexeme. -/

inductive Json where
  | null : Json
  | bool (b : Bool) : Json
  | num (lexeme : String) : Json
  | str (s : String) : Json
  | arr (elems : List Json) : Json
  | obj (fields : List (String × Json)) : Json

/-- JSON insignificant whitespace. -/
def isJsonWs (c : Char) : Bool :=
  c = ' ' || c = '\t' || c = '\n' || c = '\r'

def jsonSkipWs (cs : List Char) : List Char :=
  cs.dropWhile isJsonWs

def isDigitChar (c : Char) : Bool :=
  '0' ≤ c && c ≤ '9'

def isHexDigitChar (c : Char) : Bool :=
  ('0' ≤ c && c ≤ '9') || ('a' ≤ c && c ≤ 'f') || ('A' ≤ c && c ≤ 'F')

/-- Numeric value of one hex digit (0 for non-digits). -/
def hexDigitVal (c : Char) : Nat :=
  if '0' ≤ c && c ≤ '9' then c.toNat - 48
  else if 'a' ≤ c && c ≤ 'f' then c.toNat - 87
  else if 'A' ≤ c && c ≤ 'F' then c.toNat - 55
  else 0

/-- Body of a JSON string literal, after the opening quote; returns the
decoded characters and the rest of the input. -/
def parseStrBody : Nat → List Char → Option (List Char × List Char)
  | 0, _ => none
  | _, [] => none
  | fuel + 1, c :: cs =>
    if c = '"' then some ([], cs)
    else if c = '\\' then
      match cs with
      | [] => none
      | e :: cs2 =>
        let dec : Option (Char × List Char) :=
          if e = '"' then some ('"', cs2)
          else if e = '\\' then some ('\\', cs2)
          else if e = '/' then some ('/', cs2)
          else if e = 'b' then some ('\x08', cs2)
          else if e = 'f' then some ('\x0c', cs2)
          else if e = 'n' then some ('\n', cs2)
          else if e = 'r' then some ('\r', cs2)
          else if e = 't' then some ('\t', cs2)
          else if e = 'u' then
            match cs2 with
            | h1 :: h2 :: h3 :: h4 :: rest =>
              if isHexDigitChar h1 && isHexDigitChar h2 &&
                 isHexDigitChar h3 && isHexDigitChar h4 then
                some (Char.ofNat
                  (hexDigitVal h1 * 4096 + hexDigitVal h2 * 256 +
                   hexDigitVal h3 * 16 + hexDigitVal h4), rest)
              else none
            | _ => none
          else none
        match dec with
        | some (ch, rest) =>
          match parseStrBody fuel rest with
          | some (body, r) => some (ch :: body, r)
          | none => none
        | none => none
    else
      match parseStrBody fuel cs with
      | some (body, r) => some (c :: body, r)
      | none => none

/-- Fractional part of a JSON number (possibly empty); returns its lexeme. -/
def parseFrac (cs : List Char) : Option (List Char × List Char) :=
  match cs with
  | '.' :: r =>
    let fd := r.takeWhile isDigitChar
    if fd.isEmpty then none else some ('.' :: fd, r.drop fd.length)
  | _ => some ([], cs)

/-- Exponent part of a JSON number (possibly empty); returns its lexeme. -/
def parseExp (cs : List Char) : Option (List Char × List Char) :=
  match cs with
  | e :: r =>
    if e = 'e' ∨ e = 'E' then
      let signAndRest : List Char × List Char :=
        match r with
        | s :: r2 => if s = '+' ∨ s = '-' then ([s], r2) else ([], r)
        | [] => ([], [])
      let ed := signAndRest.2.takeWhile isDigitChar
      if ed.isEmpty then none
      else some (e :: (signAndRest.1 ++ ed), signAndRest.2.drop ed.length)
    else some ([], cs)
  | [] => some ([], [])

/-- JSON numeric literal; the lexeme is kept verbatim. -/
def parseNumber (cs : List Char) : Option (String × List Char) :=
  let signAndRest : List Char × List Char :=
    match cs with
    | '-' :: r => (['-'], r)
    | _ => ([], cs)
  let ds := signAndRest.2.takeWhile isDigitChar
  let cs2 := signAndRest.2.drop ds.length
  if ds.isEmpty then none
  else if ds.length > 1 && ds.head? = some '0' then none
  else
    match parseFrac cs2 with
    | none => none
    | some (frac, cs3) =>
      match parseExp cs3 with
      | none => none
      | some (ex, cs4) => some (String.mk (signAndRest.1 ++ ds ++ frac ++ ex), cs4)

mutual

/-- One JSON value (leading whitespace allowed). -/
def parseValue : Nat → List Char → Option (Json × List Char)
  | 0, _ => none
  | fuel + 1, cs =>
    match jsonSkipWs cs with
    | [] => none
    | c :: rest =>
      if c = 'n' then
        match rest with
        | 'u' :: 'l' :: 'l' :: r => some (.null, r)
        | _ => none
      else if c = 't' then
        match rest with
        | 'r' :: 'u' :: 'e' :: r => some (.bool true, r)
        | _ => none
      else if c = 'f' then
        match rest with
        | 'a' :: 'l' :: 's' :: 'e' :: r => some (.bool false, r)
        | _ => none
      else if c = '"' then
        match parseStrBody rest.length rest with
        | some (body, r) => some (.str (String.mk body), r)
        | none => none
      else if c = '[' then
        match jsonSkipWs rest with
        | ']' :: r => some (.arr [], r)
        | rest2 =>
          match parseElems fuel rest2 with
          | some (es, r) => some (.arr es, r)
          | none => none
      else if c = '{' then
        match jsonSkipWs rest with
        | '}' :: r => some (.obj [], r)
        | rest2 =>
          match parseFields fuel rest2 with
          | some (fs, r) => some (.obj fs, r)
          | none => none
      else
        match parseNumber (c :: rest) with
        | some (lx, r) => some (.num lx, r)
        | none => none

/-- Comma-separated array elements up to the closing bracket. -/
def parseElems : Nat → List Char → Option (List Json × List Char)
  | 0, _ => none
  | fuel + 1, cs =>
    match parseValue fuel cs with
    | none => none
    | some (v, r) =>
      match jsonSkipWs r with
      | ',' :: r2 =>
        match parseElems fuel r2 with
        | some (es, r3) => some (v :: es, r3)
        | none => none
      | ']' :: r2 => some ([v], r2)
      | _ => none

/-- Comma-separated object members up to the closing brace. -/
def parseFields : Nat → List Char → Option (List (String × Json) × List Char)
  | 0, _ => none
  | fuel + 1, cs =>
    match jsonSkipWs cs with
    | '"' :: rest =>
      match parseStrBody rest.length rest with
      | none => none
      | some (key, r) =>
        match jsonSkipWs r with
        | ':' :: r2 =>
          match parseValue fuel r2 with
          | none => none
          | some (v, r3) =>
            match jsonSkipWs r3 with
            | ',' :: r4 =>
              match parseFields fuel r4 with
              | some (fs, r5) => some ((String.mk key, v) :: fs, r5)
              | none => none
            | '}' :: r4 => some ([(String.mk key, v)], r4)
            | _ => none
        | _ => none
    | _ => none

end

/-- `JSON.parse`: parse one value and require only whitespace to follow;
`none` models a thrown `SyntaxError`. -/
def jsonParse (s : String) : Option Json :=
  match parseValue (2 * s.data.length + 2) s.data with
  | some (v, r) => if jsonSkipWs r = [] then some v else none
  | none => none

/-! ## Checklist component

`CHECKLIST_STORAGE_KEY = 'checklistItems'`. The mutating operations are
read-modify-write against the decoded snapshot; `OpResult` records the
resulting snapshot plus whether `saveChecklist` and `renderChecklist`
were reached. -/

structure Item where
  text : String
  checked : Bool
deriving DecidableEq, Repr

structure OpResult where
  items : List Item
  saved : Bool
  rendered : Bool
deriving DecidableEq, Repr

/-- `loadChecklist()`: `const saved = localStorage.getItem(KEY); return
saved ? JSON.parse(saved) : []`. `Except.error` models the `JSON.parse`
exception escaping the function; the JS truthiness guard `saved ?` is
false both for an absent key (`null`) and for the empty string. -/
def loadChecklist (saved : Option String) : Except Unit Json :=
  match saved with
  | none => Except.ok (Json.arr [])
  | some s =>
    if s = "" then Except.ok (Json.arr [])
    else
      match jsonParse s with
      | some j => Except.ok j
      | none => Except.error ()

/-- `deleteItem(index)` acting on the loaded snapshot:
`items.splice(index, 1)`, then `saveChecklist(items)` and a re-render. -/
def deleteItem (index : Int) (stored : List Item) : OpResult :=
  { items := jsSpliceRemoveOne stored index, saved := true, rendered := true }

/-- `toggleItem(index)` acting on the loaded snapshot:
`items[index].checked = !items[index].checked`, then save and re-render;
`none` models the TypeError thrown when `items[index]` is `undefined`. -/
def toggleItem (index : Nat) (stored : List Item) : Option OpResult :=
  match stored[index]? with
  | some it =>
    some { items := stored.set index { text := it.text, checked := !it.checked },
           saved := true, rendered := true }
  | none => none

/-- `addItem(inputBox, checklist)`: trim the input value, return early if
empty, else push `\x7btext, checked: false\x7d`, clear the box, save,
re-render. The second component is the input box value afterwards. -/
def addItem (inputValue : String) (stored : List Item) : OpResult × String :=
  let text := jsTrim inputValue
  if text = "" then ({ items := stored, saved := false, rendered := false }, inputValue)
  else
    ({ items := stored ++ [{ text := text, checked := false }],
       saved := true, rendered := true }, "")

/-! ## DOM anchors and observable widget effects -/

/-- Which element ids `document.getElementById` finds on the page. -/
def Dom : Type := String → Bool

inductive Effect where
  | storeWrite (key value : String) : Effect
  | docSetProperty (prop value : String) : Effect
  | setInputValue (id value : String) : Effect
  | setText (id text : String) : Effect
  | clearChildren (id : String) : Effect
  | appendChild (parentId : String) : Effect
  | addListener (targetId event : String) : Effect
deriving DecidableEq, Repr

/-- Observable DOM effects of `renderChecklist`: clear the list, then per
item append a row wired with a delete-button click handler and a row
click handler. -/
def renderChecklistEffects (items : List Item) : List Effect :=
  Effect.clearChildren "checklist" ::
    items.flatMap (fun _ =>
      [Effect.addListener "delete-btn" "click",
       Effect.appendChild "checklist",
       Effect.addListener "checklist-item" "click"])

/-- Effects of `initChecklist()`: `if (!inputBox || !checklist) return;`
then an initial render and the Enter-key listener on the input box. -/
def initChecklist (dom : Dom) (stored : List Item) : List Effect :=
  if dom "inputBox" && dom "checklist" then
    renderChecklistEffects stored ++ [Effect.addListener "inputBox" "keypress"]
  else []

/-! ## Password gate -/

inductive PwOutcome where
  | navigate (url : String) : PwOutcome
  | alert (msg : String) : PwOutcome
deriving DecidableEq, Repr

/-- `checkPassword()`: compare the input against the plaintext
`'twentyone'`; navigate on match, otherwise alert with the hint text. -/
def checkPassword (input : String) : PwOutcome :=
  if input = "twentyone" then PwOutcome.navigate "main.html"
  else PwOutcome.alert "Incorrect Passcode. Try '1234'."

/-- The passcode value quoted inside the failure alert text. -/
def hintedPassword : String := "1234"

/-! ## Calendar component -/

structure CalState where
  currentMonth : Int
  currentYear : Int
deriving DecidableEq, Repr

/-- `navigateMonth(direction)`: add the direction to the month, wrapping
below 0 to December of the previous year and above 11 to January of the
next year. -/
def navigateMonth (direction : Int) (s : CalState) : CalState :=
  let m := s.currentMonth + direction
  if m < 0 then { currentMonth := 11, currentYear := s.currentYear - 1 }
  else if m > 11 then { currentMonth := 0, currentYear := s.currentYear + 1 }
  else { currentMonth := m, currentYear := s.currentYear }

/-- `getCalendarStorageKey(year, month)`: the template literal
`calendarNotes-$year-$month` (displayed year and zero-based month, here
non-negative). -/
def getCalendarStorageKey (year month : Nat) : String :=
  "calendarNotes-" ++ natToString year ++ "-" ++ natToString month

/-- Lower-case hex digit character for `n < 16`. -/
def hexDigitChar (n : Nat) : Char :=
  if n < 10 then Char.ofNat (48 + n) else Char.ofNat (87 + n)

/-- `JSON.stringify` escaping of one character inside a string literal. -/
def jsonEscapeChar (c : Char) : List Char :=
  if c = '"' then ['\\', '"']
  else if c = '\\' then ['\\', '\\']
  else if c = '\n' then ['\\', 'n']
  else if c = '\r' then ['\\', 'r']
  else if c = '\t' then ['\\', 't']
  else if c = '\x08' then ['\\', 'b']
  else if c = '\x0c' then ['\\', 'f']
  else if c.toNat < 32 then
    ['\\', 'u', '0', '0', hexDigitChar (c.toNat / 16), hexDigitChar (c.toNat % 16)]
  else [c]

/-- `JSON.stringify` of one string. -/
def jsonQuote (s : String) : String :=
  String.mk ('"' :: (s.data.flatMap jsonEscapeChar ++ ['"']))

/-- `JSON.stringify` of a flat string-to-string object (the note map). -/
def stringifyNotes (notes : List (String × String)) : String :=
  "\x7b" ++ String.intercalate ","
    (notes.map (fun p => jsonQuote p.1 ++ ":" ++ jsonQuote p.2)) ++ "\x7d"

/-- `savedNotes[day] = value` on a JS object modelled as an ordered
field list: overwrite in place when the key exists, else append. -/
def setField (fields : List (String × String)) (k v : String) :
    List (String × String) :=
  if fields.any (fun p => p.1 = k) then
    fields.map (fun p => if p.1 = k then (k, v) else p)
  else fields ++ [(k, v)]

/-- The calendar textarea `input` handler for day `day` of the displayed
`(year, month)`: update the in-memory `savedNotes` map and write the
stringified map back under the current month's key. -/
def writeCalendarNote (store : Store) (year month : Nat)
    (savedNotes : List (String × String)) (day : Nat) (value : String) : Store :=
  setItem store (getCalendarStorageKey year month)
    (stringifyNotes (setField savedNotes (natToString day) value))

/-- The notes `generateCalendar` loads for the displayed `(year, month)`:
`JSON.parse(localStorage.getItem(key) || '\x7b\x7d')` (the empty string
is falsy). -/
def loadCalendarNotes (store : Store) (year month : Nat) : Option Json :=
  match store (getCalendarStorageKey year month) with
  | none => jsonParse "\x7b\x7d"
  | some s => if s = "" then jsonParse "\x7b\x7d" else jsonParse s

/-! ## Theme selector -/

/-- The shorthand-expansion step of `hexToRgb`: the anchored,
case-insensitive regex over an optional `#` and three hex digits, whose
whole match is replaced by the six doubled digits. -/
def expandShorthand (s : String) : String :=
  match s.data with
  | ['#', r, g, b] =>
    if isHexDigitChar r && isHexDigitChar g && isHexDigitChar b then
      String.mk [r, r, g, g, b, b]
    else s
  | [r, g, b] =>
    if isHexDigitChar r && isHexDigitChar g && isHexDigitChar b then
      String.mk [r, r, g, g, b, b]
    else s
  | _ => s

/-- `parseInt` base 16 of two hex digits. -/
def hexPairVal (a b : Char) : Nat :=
  16 * hexDigitVal a + hexDigitVal b

/-- The full-form match of `hexToRgb`: an anchored, case-insensitive
regex over an optional `#` and three pairs of hex digits. -/
def matchFullHex (s : String) : Option (Nat × Nat × Nat) :=
  match s.data with
  | ['#', a, b, c, d, e, f] =>
    if isHexDigitChar a && isHexDigitChar b && isHexDigitChar c &&
       isHexDigitChar d && isHexDigitChar e && isHexDigitChar f then
      some (hexPairVal a b, hexPairVal c d, hexPairVal e f)
    else none
  | [a, b, c, d, e, f] =>
    if isHexDigitChar a && isHexDigitChar b && isHexDigitChar c &&
       isHexDigitChar d && isHexDigitChar e && isHexDigitChar f then
      some (hexPairVal a b, hexPairVal c d, hexPairVal e f)
    else none
  | _ => none

/-- `hexToRgb(hex)`: expand the shorthand form, match the full form, and
return the comma-separated decimal triple, or the default
`'253, 224, 71'` when parsing fails. -/
def hexToRgb (hex : String) : String :=
  match matchFullHex (expandShorthand hex) with
  | some (r, g, b) =>
    natToString r ++ ", " ++ natToString g ++ ", " ++ natToString b
  | none => "253, 224, 71"

/-- Effects of `applyColor(hexColor, inputElement)`; `hasInputElement`
says whether the optional input-element argument was non-null. -/
def applyColor (hexColor : String) (hasInputElement : Bool) (dom : Dom) :
    List Effect :=
  [Effect.docSetProperty "--accent-color" hexColor,
   Effect.docSetProperty "--accent-color-rgb" (hexToRgb hexColor),
   Effect.storeWrite "accentColor" hexColor]
  ++ (if hasInputElement then [Effect.setInputValue "accentColorPicker" hexColor] else [])
  ++ (if dom "hexDisplay" then
        [Effect.setText "hexDisplay" ("Current Hex: " ++ hexColor.toUpper)]
      else [])

/-- JS `savedColor || DEFAULT_HEX` (the empty string is falsy). -/
def jsOrDefaultColor (savedColor : Option String) : String :=
  match savedColor with
  | some s => if s = "" then "#ffffff" else s
  | none => "#ffffff"

/-- Effects of `initThemeSelector()`, given which DOM anchors exist and
the stored `accentColor` value: `applyColor` runs unconditionally; the
listeners are registered only when the picker exists. -/
def initThemeSelector (dom : Dom) (savedColor : Option String) : List Effect :=
  applyColor (jsOrDefaultColor savedColor) (dom "accentColorPicker") dom
  ++ (if dom "accentColorPicker" then
        [Effect.addListener "accentColorPicker" "input",
         Effect.addListener "accentColorPicker" "change"]
      else [])

/-! ## Helper lemmas -/

/-- Splicing at a valid non-negative index is take-then-drop. -/
theorem jsSplice_natCast (l : List α) (k : Nat) (hk : k ≤ l.length) :
    jsSpliceRemoveOne l (k : Int) = l.take k ++ l.drop (k + 1) := by
  simp only [jsSpliceRemoveOne]
  rw [if_neg (by omega), Int.toNat_natCast, Nat.min_eq_left hk]

/-- C9: the password gate accepts exactly the plaintext `'twentyone'`
(navigating to `main.html`), while the failure alert names `'1234'`,
which is itself rejected: the hinted value is not the accepted value. -/
theorem checkPassword_hint_mismatch :
    checkPassword "twentyone" = PwOutcome.navigate "main.html" ∧
    checkPassword hintedPassword =
      PwOutcome.alert ("Incorrect Passcode. Try '" ++ hintedPassword ++ "'.") ∧
    checkPassword hintedPassword ≠ PwOutcome.navigate "main.html" ∧
    hintedPassword ≠ "twentyone" := by
  refine ⟨rfl, ?_, ?_, ?_⟩ <;> decide

/-- C7: one forward transition from December yields January of the next
year, one backward transition from January yields December of the
previous year, and a non-wrapping transition moves only the month. -/
theorem navigateMonth_spec (Y : Int) :
    navigateMonth 1 { currentMonth := 11, currentYear := Y } =
      { currentMonth := 0, currentYear := Y + 1 } ∧
    navigateMonth (-1) { currentMonth := 0, currentYear := Y } =
      { currentMonth := 11, currentYear := Y - 1 } ∧
    (∀ m d : Int, (d = 1 ∨ d = -1) → 0 ≤ m + d → m + d ≤ 11 →
      navigateMonth d { currentMonth := m, currentYear := Y } =
        { currentMonth := m + d, currentYear := Y }) := by
  refine ⟨?_, ?_, ?_⟩
  · simp only [navigateMonth]
    norm_num
  · simp only [navigateMonth]
    norm_num
  · intro m d _ h0 h11
    simp only [navigateMonth]
    rw [if_neg (by omega), if_neg (by omega)]

theorem navigateMonth_spec_witness :
    navigateMonth 1 { currentMonth := 11, currentYear := 2024 } =
      { currentMonth := 0, currentYear := 2025 } ∧
    navigateMonth (-1) { currentMonth := 0, currentYear := 2024 } =
      { currentMonth := 11, currentYear := 2023 } ∧
    navigateMonth 1 { currentMonth := 5, currentYear := 2024 } =
      { currentMonth := 6, currentYear := 2024 } := by
  refine ⟨(navigateMonth_spec 2024).1, (navigateMonth_spec 2024).2.1, ?_⟩
  have h := (navigateMonth_spec 2024).2.2 5 1 (Or.inl rfl) (by norm_num) (by norm_num)
  norm_num at h
  exact h

/-- C5: adding from an input whose trimmed text is empty is a no-op (the
sequence keeps its length, nothing is saved, the input box keeps its
value), while a non-empty trimmed text is appended unchecked, saved,
and the input box is cleared. -/
theorem addItem_spec (inputValue : String) (stored : List Item) :
    (jsTrim inputValue = "" →
      (addItem inputValue stored).1.items.length = stored.length ∧
      (addItem inputValue stored).1.saved = false ∧
      (addItem inputValue stored).2 = inputValue) ∧
    (jsTrim inputValue ≠ "" →
      (addItem inputValue stored).1.items =
        stored ++ [{ text := jsTrim inputValue, checked := false }] ∧
      (addItem inputValue stored).1.saved = true ∧
      (addItem inputValue stored).2 = "") := by
  constructor
  · intro h
    simp [addItem, h]
  · intro h
    simp [addItem, h]

theorem addItem_spec_witness :
    (addItem "   " [{ text := "x", checked := false }]).1.items.length = 1 ∧
    (addItem "   " [{ text := "x", checked := false }]).1.saved = false ∧
    (addItem " Buy milk " []).1.items = [{ text := "Buy milk", checked := false }] ∧
    (addItem " Buy milk " []).1.saved = true ∧
    (addItem " Buy milk " []).2 = "" := by
  have h1 := (addItem_spec "   " [{ text := "x", checked := false }]).1 (by decide)
  have h2 := (addItem_spec " Buy milk " []).2 (by decide)
  refine ⟨h1.1, h1.2.1, ?_, h2.2.1, h2.2.2⟩
  rw [h2.1]
  decide

/-- C3: deleting a valid index `k` persists a sequence one record
shorter in which indices below `k` are unchanged and the record
formerly at `j + 1` (for `j ≥ k`) now sits at `j`. -/
theorem deleteItem_spec (stored : List Item) (k : Nat) (hk : k < stored.length) :
    (deleteItem k stored).saved = true ∧
    (deleteItem k stored).items.length = stored.length - 1 ∧
    (∀ j : Nat, j < k → (deleteItem k stored).items[j]? = stored[j]?) ∧
    (∀ j : Nat, k ≤ j → (deleteItem k stored).items[j]? = stored[j + 1]?) := by
  have hsplice : (deleteItem k stored).items = stored.take k ++ stored.drop (k + 1) := by
    simp only [deleteItem]
    exact jsSplice_natCast stored k (Nat.le_of_lt hk)
  refine ⟨rfl, ?_, ?_, ?_⟩
  · rw [hsplice]
    simp only [List.length_append, List.length_take, List.length_drop]
    omega
  · intro j hj
    rw [hsplice, List.getElem?_append]
    rw [if_pos (by simp [List.length_take]; omega), List.getElem?_take, if_pos hj]
  · intro j hj
    rw [hsplice, List.getElem?_append]
    rw [if_neg (by simp [List.length_take]; omega), List.getElem?_drop]
    congr 1
    simp only [List.length_take]
    omega

theorem deleteItem_spec_witness :
    (1 : Nat) < ([{ text := "a", checked := false }, { text := "b", checked := true },
      { text := "c", checked := false }] : List Item).length ∧
    (deleteItem 1 [{ text := "a", checked := false }, { text := "b", checked := true },
      { text := "c", checked := false }]).items.length = 2 ∧
    (deleteItem 1 [{ text := "a", checked := false }, { text := "b", checked := true },
      { text := "c", checked := false }]).items[0]? = some { text := "a", checked := false } ∧
    (deleteItem 1 [{ text := "a", checked := false }, { text := "b", checked := true },
      { text := "c", checked := false }]).items[1]? = some { text := "c", checked := false } := by
  have h := deleteItem_spec [{ text := "a", checked := false }, { text := "b", checked := true },
    { text := "c", checked := false }] 1 (by decide)
  refine ⟨by decide, h.2.1, ?_, ?_⟩
  · exact (h.2.2.1 0 (by decide)).trans (by decide)
  · exact (h.2.2.2 1 (by decide)).trans (by decide)

/-- C4: toggling a valid index `k` succeeds, persists, flips exactly the
checked field of the record at `k` keeping its text, and leaves every
other position unchanged. -/
theorem toggleItem_spec (stored : List Item) (k : Nat) (hk : k < stored.length) :
    ∃ r : OpResult, toggleItem k stored = some r ∧
      r.saved = true ∧
      r.items.length = stored.length ∧
      r.items[k]? = some { text := stored[k].text, checked := !stored[k].checked } ∧
      (∀ j : Nat, j ≠ k → r.items[j]? = stored[j]?) := by
  have h : stored[k]? = some stored[k] := List.getElem?_eq_getElem hk
  refine ⟨{ items := stored.set k { text := stored[k].text, checked := !stored[k].checked },
            saved := true, rendered := true }, ?_, rfl, ?_, ?_, ?_⟩
  · simp only [toggleItem, h]
  · simp
  · exact List.getElem?_set_self (by simpa using hk)
  · intro j hj
    exact List.getElem?_set_ne (Ne.symm hj)

theorem toggleItem_spec_witness :
    (0 : Nat) < ([{ text := "milk", checked := false }] : List Item).length ∧
    ∃ r : OpResult, toggleItem 0 [({ text := "milk", checked := false } : Item)] = some r ∧
      r.saved = true ∧
      r.items[0]? = some { text := "milk", checked := true } := by
  refine ⟨by decide, ?_⟩
  obtain ⟨r, h1, h2, _, h4, _⟩ :=
    toggleItem_spec [{ text := "milk", checked := false }] 0 (by decide)
  exact ⟨r, h1, h2, h4⟩

/-- C10 as amended: an index at or past the length removes nothing (the
persisted contents equal what was loaded, though a save and re-render
still happen); an index below `-n` is clamped by `splice` to 0 and
removes the first record. -/
theorem deleteItem_out_of_range (stored : List Item) (index : Int) :
    ((stored.length : Int) ≤ index →
      deleteItem index stored = { items := stored, saved := true, rendered := true }) ∧
    (index < -(stored.length : Int) →
      deleteItem index stored = { items := stored.tail, saved := true, rendered := true }) := by
  constructor
  · intro h
    simp only [deleteItem, jsSpliceRemoveOne, OpResult.mk.injEq, and_true]
    rw [if_neg (by omega)]
    have hmin : min index.toNat stored.length = stored.length := by omega
    rw [hmin, List.take_length, List.drop_eq_nil_of_le (by omega), List.append_nil]
  · intro h
    simp only [deleteItem, jsSpliceRemoveOne, OpResult.mk.injEq, and_true]
    rw [if_pos (by omega)]
    have hz : ((stored.length : Int) + index).toNat = 0 := by omega
    rw [hz]
    simp [List.drop_one]

/-- The claim fails below `-n`: splicing `[a]` at `-2` removes `a`. -/
theorem deleteItem_out_of_range_counterexample :
    (deleteItem (-2) [({ text := "a", checked := false } : Item)]).items ≠
      [{ text := "a", checked := false }] := by decide

theorem deleteItem_out_of_range_witness :
    deleteItem 5 [({ text := "a", checked := false } : Item)] =
      { items := [{ text := "a", checked := false }], saved := true, rendered := true } ∧
    deleteItem (-2) [({ text := "a", checked := false } : Item)] =
      { items := [], saved := true, rendered := true } := by
  constructor
  · exact (deleteItem_out_of_range [{ text := "a", checked := false }] 5).1 (by decide)
  · exact (deleteItem_out_of_range [{ text := "a", checked := false }] (-2)).2 (by decide)

/-- C2 fails on the theme selector: with every DOM anchor absent, its
initialization still writes the accent color key to the store. -/
theorem initThemeSelector_counterexample :
    Effect.storeWrite "accentColor" "#ffffff" ∈
      initThemeSelector (fun _ => false) none := by decide

/-- C2 as amended: the checklist exits completely when an anchor is
missing, and the theme selector registers no listeners without its
picker — but it still applies and persists the saved-or-default color
(a store write and document-level CSS variable changes). -/
theorem widgets_missing_anchor_spec (dom : Dom) :
    (∀ stored : List Item, dom "inputBox" = false ∨ dom "checklist" = false →
      initChecklist dom stored = []) ∧
    (∀ savedColor : Option String, dom "accentColorPicker" = false →
      (∀ t e : String, Effect.addListener t e ∉ initThemeSelector dom savedColor) ∧
      Effect.storeWrite "accentColor" (jsOrDefaultColor savedColor) ∈
        initThemeSelector dom savedColor ∧
      Effect.docSetProperty "--accent-color" (jsOrDefaultColor savedColor) ∈
        initThemeSelector dom savedColor) := by
  constructor
  · intro stored h
    simp only [initChecklist]
    rcases h with h | h <;> simp [h]
  · intro savedColor h
    simp only [initThemeSelector, applyColor, h]
    refine ⟨?_, ?_, ?_⟩
    · intro t e
      cases hd : dom "hexDisplay" <;> simp [hd]
    · cases hd : dom "hexDisplay" <;> simp [hd]
    · cases hd : dom "hexDisplay" <;> simp [hd]

theorem widgets_missing_anchor_witness :
    initChecklist (fun _ => false) [] = [] ∧
    Effect.storeWrite "accentColor" (jsOrDefaultColor none) ∈
      initThemeSelector (fun _ => false) none ∧
    (∀ t e : String, Effect.addListener t e ∉ initThemeSelector (fun _ => false) none) := by
  have h := widgets_missing_anchor_spec (fun _ => false)
  exact ⟨h.1 [] (Or.inl rfl), (h.2 none rfl).2.1, (h.2 none rfl).1⟩

/-- C8: a shorthand hex color (with or without `#`) yields the same RGB
triple as its doubled six-digit expansion, and an input matching
neither form yields the documented default triple `'253, 224, 71'`. -/
theorem hexToRgb_spec :
    (∀ r g b : Char, isHexDigitChar r = true → isHexDigitChar g = true →
      isHexDigitChar b = true →
      hexToRgb (String.mk ['#', r, g, b]) =
        hexToRgb (String.mk ['#', r, r, g, g, b, b]) ∧
      hexToRgb (String.mk [r, g, b]) =
        hexToRgb (String.mk [r, r, g, g, b, b]) ∧
      hexToRgb (String.mk ['#', r, g, b]) = hexToRgb (String.mk [r, g, b])) ∧
    (∀ s : String, expandShorthand s = s → matchFullHex s = none →
      hexToRgb s = "253, 224, 71") := by
  constructor
  · intro r g b hr hg hb
    have e1 : expandShorthand (String.mk ['#', r, g, b]) = String.mk [r, r, g, g, b, b] := by
      simp [expandShorthand, hr, hg, hb]
    have e2 : expandShorthand (String.mk [r, g, b]) = String.mk [r, r, g, g, b, b] := by
      simp [expandShorthand, hr, hg, hb]
    have e3 : expandShorthand (String.mk ['#', r, r, g, g, b, b]) =
        String.mk ['#', r, r, g, g, b, b] := rfl
    have e4 : expandShorthand (String.mk [r, r, g, g, b, b]) =
        String.mk [r, r, g, g, b, b] := by
      simp [expandShorthand]
    have m1 : matchFullHex (String.mk [r, r, g, g, b, b]) =
        some (hexPairVal r r, hexPairVal g g, hexPairVal b b) := by
      simp [matchFullHex, hr, hg, hb]
    have m2 : matchFullHex (String.mk ['#', r, r, g, g, b, b]) =
        some (hexPairVal r r, hexPairVal g g, hexPairVal b b) := by
      simp [matchFullHex, hr, hg, hb]
    refine ⟨?_, ?_, ?_⟩ <;> simp [hexToRgb, e1, e2, e3, e4, m1, m2]
  · intro s h1 h2
    simp [hexToRgb, h1, h2]

theorem hexToRgb_spec_witness :
    hexToRgb "#03F" = hexToRgb "#0033FF" ∧
    hexToRgb "#03F" = "0, 51, 255" ∧
    hexToRgb "hello" = "253, 224, 71" := by
  have h := (hexToRgb_spec.1 '0' '3' 'F' (by decide) (by decide) (by decide)).1
  have h2 := hexToRgb_spec.2 "hello" (by decide) (by decide)
  exact ⟨h, by decide, h2⟩

/-- C1 fails on malformed JSON: `loadChecklist` lets the parse error
escape instead of returning the empty sequence. -/
theorem loadChecklist_counterexample :
    loadChecklist (some "\x7b") = Except.error () := rfl

/-- C1 as amended: `loadChecklist` returns the parsed value whenever the
non-empty stored string parses (whatever its shape), the empty sequence
when the key is absent or the stored string is empty, and propagates
the `JSON.parse` exception when the stored string is malformed. -/
theorem loadChecklist_spec :
    loadChecklist none = Except.ok (Json.arr []) ∧
    loadChecklist (some "") = Except.ok (Json.arr []) ∧
    (∀ (s : String) (j : Json), s ≠ "" → jsonParse s = some j →
      loadChecklist (some s) = Except.ok j) ∧
    (∀ s : String, s ≠ "" → jsonParse s = none →
      loadChecklist (some s) = Except.error ()) ∧
    loadChecklist (some "[\x7b\"text\":\"milk\",\"checked\":false\x7d]") =
      Except.ok (Json.arr [Json.obj [("text", Json.str "milk"),
        ("checked", Json.bool false)]]) ∧
    loadChecklist (some "5") = Except.ok (Json.num "5") := by
  refine ⟨rfl, rfl, ?_, ?_, rfl, rfl⟩
  · intro s j hs hp
    simp [loadChecklist, hs, hp]
  · intro s hs hp
    simp [loadChecklist, hs, hp]

theorem loadChecklist_spec_witness :
    loadChecklist (some "[]") = Except.ok (Json.arr []) ∧
    loadChecklist (some "\x7b\x7d5") = Except.error () := by
  exact ⟨loadChecklist_spec.2.2.1 "[]" (Json.arr []) (by decide) rfl,
    loadChecklist_spec.2.2.2.1 "\x7b\x7d5" (by decide) rfl⟩

/-- Decimal value of a digit-character list (how the key's numeric parts
read back). -/
def decDigitsVal (cs : List Char) : Nat :=
  cs.foldl (fun acc c => acc * 10 + (c.toNat - 48)) 0

theorem toNat_digitCharOf (d : Nat) (hd : d < 10) :
    (Char.ofNat (48 + d)).toNat = 48 + d := by
  interval_cases d <;> decide

theorem decDigitsVal_natCharsAux :
    ∀ fuel n : Nat, n < fuel → decDigitsVal (natCharsAux fuel n) = n := by
  intro fuel
  induction fuel with
  | zero => intro n h; omega
  | succ fuel ih =>
    intro n h
    by_cases h0 : n = 0
    · simp [natCharsAux, h0, decDigitsVal]
    · have hdiv : n / 10 < fuel := by
        have : n / 10 < n := Nat.div_lt_self (by omega) (by omega)
        omega
      have hrec := ih (n / 10) hdiv
      have hmod : n % 10 < 10 := Nat.mod_lt _ (by omega)
      simp only [natCharsAux, if_neg h0, decDigitsVal, List.foldl_append] at *
      rw [hrec]
      simp only [List.foldl_cons, List.foldl_nil, toNat_digitCharOf _ hmod]
      omega

theorem decDigitsVal_natToString (n : Nat) :
    decDigitsVal (natToString n).data = n := by
  by_cases h0 : n = 0
  · simp [natToString, h0, decDigitsVal]
  · simp only [natToString, if_neg h0]
    exact decDigitsVal_natCharsAux (n + 1) n (by omega)

theorem natToString_inj (a b : Nat) (h : natToString a = natToString b) : a = b := by
  have := congrArg (fun s => decDigitsVal s.data) h
  simpa [decDigitsVal_natToString] using this

theorem dash_not_mem_natCharsAux :
    ∀ fuel n : Nat, '-' ∉ natCharsAux fuel n := by
  intro fuel
  induction fuel with
  | zero => intro n; simp [natCharsAux]
  | succ fuel ih =>
    intro n
    by_cases h0 : n = 0
    · simp [natCharsAux, h0]
    · simp only [natCharsAux, if_neg h0, List.mem_append, List.mem_singleton]
      rintro (hmem | heq)
      · exact ih (n / 10) hmem
      · have hmod : n % 10 < 10 := Nat.mod_lt _ (by omega)
        have := congrArg Char.toNat heq
        rw [toNat_digitCharOf _ hmod] at this
        simp at this
        omega

theorem dash_not_mem_natToString (n : Nat) : '-' ∉ (natToString n).data := by
  by_cases h0 : n = 0
  · simp [natToString, h0]
  · simp only [natToString, if_neg h0]
    exact dash_not_mem_natCharsAux (n + 1) n

/-- A character that occurs in neither prefix splits concatenations
uniquely. -/
theorem append_cons_inj (c : Char) :
    ∀ (a a' b b' : List Char), c ∉ a → c ∉ a' →
      a ++ c :: b = a' ++ c :: b' → a = a' ∧ b = b' := by
  intro a
  induction a with
  | nil =>
    intro a' b b' _ ha' h
    cases a' with
    | nil => simpa using h
    | cons x xs =>
      simp only [List.nil_append, List.cons_append, List.cons.injEq] at h
      exact absurd (by rw [h.1]; exact List.mem_cons_self x xs) ha'
  | cons x xs ih =>
    intro a' b b' ha ha' h
    cases a' with
    | nil =>
      simp only [List.cons_append, List.nil_append, List.cons.injEq] at h
      exact absurd (by rw [← h.1]; exact List.mem_cons_self x xs) ha
    | cons y ys =>
      simp only [List.cons_append, List.cons.injEq] at h
      have hxs : c ∉ xs := fun hc => ha (List.mem_cons_of_mem _ hc)
      have hys : c ∉ ys := fun hc => ha' (List.mem_cons_of_mem _ hc)
      obtain ⟨e1, e2⟩ := ih ys b b' hxs hys h.2
      exact ⟨by rw [h.1, e1], e2⟩

/-- Distinct (year, month) pairs own distinct calendar storage keys. -/
theorem getCalendarStorageKey_inj (y1 m1 y2 m2 : Nat)
    (h : getCalendarStorageKey y1 m1 = getCalendarStorageKey y2 m2) :
    y1 = y2 ∧ m1 = m2 := by
  have hd := congrArg String.data h
  have hdash : ("-" : String).data = ['-'] := rfl
  simp only [getCalendarStorageKey, String.data_append, hdash, List.append_assoc,
    List.singleton_append] at hd
  have hcancel := List.append_cancel_left hd
  obtain ⟨e1, e2⟩ := append_cons_inj '-' _ _ _ _
    (dash_not_mem_natToString y1) (dash_not_mem_natToString y2) hcancel
  exact ⟨natToString_inj _ _ (String.ext e1), natToString_inj _ _ (String.ext e2)⟩

/-- C6: a calendar note written under one (year, month) never alters the
store under any other pair's key; the notes a month view loads depend
only on the store content under that month's own key (no cross-month
in-memory reuse); hence a write under one pair is invisible to the
other pair's load. -/
theorem calendarNote_isolation (store : Store) (y1 m1 y2 m2 : Nat)
    (hne : (y1, m1) ≠ (y2, m2)) (notes : List (String × String))
    (day : Nat) (v : String) :
    writeCalendarNote store y1 m1 notes day v (getCalendarStorageKey y2 m2) =
      store (getCalendarStorageKey y2 m2) ∧
    (∀ s1 s2 : Store,
      s1 (getCalendarStorageKey y2 m2) = s2 (getCalendarStorageKey y2 m2) →
      loadCalendarNotes s1 y2 m2 = loadCalendarNotes s2 y2 m2) ∧
    loadCalendarNotes (writeCalendarNote store y1 m1 notes day v) y2 m2 =
      loadCalendarNotes store y2 m2 := by
  have hkey : getCalendarStorageKey y2 m2 ≠ getCalendarStorageKey y1 m1 := by
    intro h
    obtain ⟨hy, hm⟩ := getCalendarStorageKey_inj y2 m2 y1 m1 h
    exact hne (by rw [hy, hm])
  have h1 : writeCalendarNote store y1 m1 notes day v (getCalendarStorageKey y2 m2) =
      store (getCalendarStorageKey y2 m2) := by
    simp only [writeCalendarNote, setItem]
    rw [if_neg hkey]
  have h2 : ∀ s1 s2 : Store,
      s1 (getCalendarStorageKey y2 m2) = s2 (getCalendarStorageKey y2 m2) →
      loadCalendarNotes s1 y2 m2 = loadCalendarNotes s2 y2 m2 := by
    intro s1 s2 hs
    simp only [loadCalendarNotes, hs]
  exact ⟨h1, h2, h2 _ _ h1⟩

theorem calendarNote_isolation_witness :
    writeCalendarNote (fun _ => none) 2024 0 [] 5 "note"
      (getCalendarStorageKey 2024 1) = none := by
  exact (calendarNote_isolation (fun _ => none) 2024 0 2024 1 (by decide) [] 5 "note").1
